import Mathlib

/-!
Verification of the cross-chain transaction construction and coordination core of
the compose-network/dome test harness.

Shallow embedding of:
  * the protobuf wire model used by `CreateCrossTxRequestMsg`
    (internal/transactions/cross_tx.go).  The generated Go code of the schema is
    an external module (`github.com/compose-network/specs/compose/proto`), so the
    field numbers are modelled from the spec's schema listing (declaration order:
    Message.senderId = 1, Message.xtRequest = 2; XTRequest.transactionRequests = 1;
    TransactionRequest.chainId = 1, TransactionRequest.transaction = 2).  The Go
    type of `TransactionRequest.ChainId` is pinned by the source itself: it is
    assigned `ChainID().Uint64()`, hence a numeric (uint64) field, which protobuf
    puts on the wire as a varint, not as a length-delimited bytes field.
  * the transaction builders `CreateTransaction` / `CreateTransactionWithNonce`,
    the submitter `SendCrossTxRequestMsg`, the session-id generator
    `GenerateRandomSessionID` and the confirmation poller `GetTransactionDetails`
    (internal/transactions/transactions.go).  External collaborators (signing
    library, RPC transport, chain queries, entropy source) are modelled as
    function parameters / oracles; network waits are modelled as trace events.

All recursions are structural (fuel bounded by the input size where needed) so
that every definition evaluates inside the kernel.
-/

/-! ## Protobuf wire model (varints, length-delimited fields) -/

/-- Little-endian base-128 varint encoder, fuel-based so that it is structural.
For `n ≤ fuel` it computes the standard minimal protobuf varint of `n`. -/
def encodeVarintFuel : Nat → Nat → List Nat
  | 0, n => [n % 128]
  | fuel + 1, n => if n < 128 then [n] else (n % 128 + 128) :: encodeVarintFuel fuel (n / 128)

/-- Minimal protobuf varint encoding of a natural number. -/
def encodeVarint (n : Nat) : List Nat := encodeVarintFuel n n

/-- Varint parser: consumes continuation bytes (high bit set) until a byte below
128, returning the decoded value and the remaining input. -/
def parseVarint : List Nat → Option (Nat × List Nat)
  | [] => none
  | b :: rest =>
    if b < 128 then some (b, rest)
    else
      match parseVarint rest with
      | none => none
      | some (v, r) => some (b - 128 + 128 * v, r)

/-- Length-delimited payload parser: a varint length followed by that many bytes. -/
def parseLenDelim (bs : List Nat) : Option (List Nat × List Nat) :=
  match parseVarint bs with
  | none => none
  | some (len, rest) => if len ≤ rest.length then some (rest.take len, rest.drop len) else none

/-! ## The Message / XTRequest / TransactionRequest schema -/

/-- One leg of a cross-chain bundle: `chainId` is a numeric (uint64-domain) field —
its Go type is pinned by `cross_tx.go` assigning `ChainID().Uint64()` to it — and
`transaction` is the repeated bytes field holding the signed-transaction payloads. -/
structure TransactionRequest where
  chainId : Nat
  transaction : List (List Nat)
deriving DecidableEq, Repr

/-- The request envelope: the repeated `TransactionRequest` field. -/
structure XTRequest where
  transactionRequests : List TransactionRequest
deriving DecidableEq, Repr

/-- The payload oneof of `Message`; the schema has a single case today. -/
inductive MessagePayload where
  | xtRequest (x : XTRequest)
deriving DecidableEq, Repr

/-- The top-level wire message: a sender id (bytes of a string) and the payload
oneof (`none` models an unset oneof). -/
structure Message where
  senderId : List Nat
  payload : Option MessagePayload
deriving DecidableEq, Repr

/-- Wire encoding of one element of the repeated `transaction` bytes field
(field 2, wire type 2, so tag byte 18). -/
def encodeTxField (b : List Nat) : List Nat := 18 :: (encodeVarint b.length ++ b)

/-- Wire encoding of a `TransactionRequest` under the standard proto3 rules:
`chainId` is a uint64 field (field 1, wire type 0, tag byte 8, omitted when 0),
each payload is a length-delimited bytes field. -/
def encodeTransactionRequest (tr : TransactionRequest) : List Nat :=
  (if tr.chainId = 0 then [] else 8 :: encodeVarint tr.chainId)
    ++ (tr.transaction.map encodeTxField).flatten

/-- Wire encoding of one element of the repeated `transactionRequests` field
(field 1, wire type 2, tag byte 10). -/
def encodeTRField (tr : TransactionRequest) : List Nat :=
  10 :: (encodeVarint (encodeTransactionRequest tr).length ++ encodeTransactionRequest tr)

/-- Wire encoding of an `XTRequest`. -/
def encodeXTRequest (x : XTRequest) : List Nat := (x.transactionRequests.map encodeTRField).flatten

/-- Wire encoding of a `Message` (the model of `proto.Marshal`): `senderId` is a
string field (field 1, wire type 2, omitted when empty); the oneof payload is a
nested message field (field 2, wire type 2) emitted whenever the oneof is set. -/
def encodeMessage (m : Message) : List Nat :=
  (if m.senderId = [] then [] else 10 :: (encodeVarint m.senderId.length ++ m.senderId))
    ++ (match m.payload with
        | none => []
        | some (MessagePayload.xtRequest x) =>
          18 :: (encodeVarint (encodeXTRequest x).length ++ encodeXTRequest x))

/-- Field loop of the `TransactionRequest` decoder: reads tag/value pairs until
the input is exhausted, assigning known fields and skipping unknown ones.  Fuel
bounds the number of iterations (each iteration consumes at least one byte). -/
def parseTRFields : Nat → List Nat → TransactionRequest → Option TransactionRequest
  | _, [], acc => some acc
  | 0, _ :: _, _ => none
  | fuel + 1, b :: tl, acc =>
    match parseVarint (b :: tl) with
    | none => none
    | some (tag, rest) =>
      match tag % 8 with
      | 0 =>
        match parseVarint rest with
        | none => none
        | some (v, r) =>
          parseTRFields fuel r (if tag / 8 = 1 then { acc with chainId := v } else acc)
      | 2 =>
        match parseLenDelim rest with
        | none => none
        | some (content, r) =>
          parseTRFields fuel r
            (if tag / 8 = 2 then { acc with transaction := acc.transaction ++ [content] } else acc)
      | 1 => if 8 ≤ rest.length then parseTRFields fuel (rest.drop 8) acc else none
      | 5 => if 4 ≤ rest.length then parseTRFields fuel (rest.drop 4) acc else none
      | _ => none

/-- Decoder of a `TransactionRequest` from its serialized bytes. -/
def parseTransactionRequest (bs : List Nat) : Option TransactionRequest :=
  parseTRFields bs.length bs { chainId := 0, transaction := [] }

/-- Field loop of the `XTRequest` decoder. -/
def parseXTFields : Nat → List Nat → XTRequest → Option XTRequest
  | _, [], acc => some acc
  | 0, _ :: _, _ => none
  | fuel + 1, b :: tl, acc =>
    match parseVarint (b :: tl) with
    | none => none
    | some (tag, rest) =>
      match tag % 8 with
      | 0 =>
        match parseVarint rest with
        | none => none
        | some (_, r) => parseXTFields fuel r acc
      | 2 =>
        match parseLenDelim rest with
        | none => none
        | some (content, r) =>
          if tag / 8 = 1 then
            match parseTransactionRequest content with
            | none => none
            | some tr =>
              parseXTFields fuel r
                { acc with transactionRequests := acc.transactionRequests ++ [tr] }
          else parseXTFields fuel r acc
      | 1 => if 8 ≤ rest.length then parseXTFields fuel (rest.drop 8) acc else none
      | 5 => if 4 ≤ rest.length then parseXTFields fuel (rest.drop 4) acc else none
      | _ => none

/-- Decoder of an `XTRequest` from its serialized bytes. -/
def parseXTRequest (bs : List Nat) : Option XTRequest :=
  parseXTFields bs.length bs { transactionRequests := [] }

/-- Field loop of the `Message` decoder. -/
def parseMsgFields : Nat → List Nat → Message → Option Message
  | _, [], acc => some acc
  | 0, _ :: _, _ => none
  | fuel + 1, b :: tl, acc =>
    match parseVarint (b :: tl) with
    | none => none
    | some (tag, rest) =>
      match tag % 8 with
      | 0 =>
        match parseVarint rest with
        | none => none
        | some (_, r) => parseMsgFields fuel r acc
      | 2 =>
        match parseLenDelim rest with
        | none => none
        | some (content, r) =>
          if tag / 8 = 1 then parseMsgFields fuel r { acc with senderId := content }
          else if tag / 8 = 2 then
            match parseXTRequest content with
            | none => none
            | some x =>
              parseMsgFields fuel r { acc with payload := some (MessagePayload.xtRequest x) }
          else parseMsgFields fuel r acc
      | 1 => if 8 ≤ rest.length then parseMsgFields fuel (rest.drop 8) acc else none
      | 5 => if 4 ≤ rest.length then parseMsgFields fuel (rest.drop 4) acc else none
      | _ => none

/-- Decoder of a `Message` from its serialized bytes (the model of
`proto.Unmarshal` for this schema). -/
def decodeMessage (bs : List Nat) : Option Message :=
  parseMsgFields bs.length bs { senderId := [], payload := none }

/-! ## Chain handles, accounts and the bundle builder (cross_tx.go) -/

/-- Immutable identity of one target chain (internal/rollup). -/
structure Rollup where
  rpcURL : String
  chainID : Nat
  name : String
deriving DecidableEq, Repr

/-- An account as used by the transaction builders: key material (possibly nil),
the rollup it is bound to, and the outcome the chain would report for a pending
nonce query made now (`GetNonce`, an external collaborator capability). -/
structure Account where
  privateKey : Option Nat
  address : String
  rollup : Rollup
  nonceResult : Except String Nat
deriving Repr

/-- Byte sequence of the fixed sender id string of the bundle encoder. -/
def senderIdClient : List Nat := "client".toList.map Char.toNat

/-- The in-memory `Message` built by `CreateCrossTxRequestMsg` before
serialization: sender id `"client"`, one `XTRequest` with the first account's
leg followed by the second account's leg, each leg carrying the account's chain
id (`ChainID().Uint64()`, hence reduced into the uint64 domain) and the single
corresponding signed-transaction byte sequence. -/
def CreateCrossTxRequestMsgStruct (ac1 ac2 : Account) (signedTx1 signedTx2 : List Nat) :
    Message :=
  { senderId := senderIdClient
    payload := some (MessagePayload.xtRequest
      { transactionRequests :=
          [ { chainId := ac1.rollup.chainID % 2 ^ 64, transaction := [signedTx1] },
            { chainId := ac2.rollup.chainID % 2 ^ 64, transaction := [signedTx2] } ] }) }

/-- The bundle encoder `CreateCrossTxRequestMsg`: builds the message and
serializes it (`proto.Marshal` cannot fail on this in-memory message, so the
error branch of the Go code is unreachable and the result is always `ok`). -/
def CreateCrossTxRequestMsg (ac1 ac2 : Account) (signedTx1 signedTx2 : List Nat) :
    Except String (List Nat) :=
  Except.ok (encodeMessage (CreateCrossTxRequestMsgStruct ac1 ac2 signedTx1 signedTx2))

/-! ## The coordination submitter (cross_tx.go, SendCrossTxRequestMsg) -/

/-- The fixed custom RPC method name of the coordination submitter. -/
def sendTxRPCMethod : String := "eth_sendXTransaction"

/-- Lower-case hexadecimal digit character for a value below 16. -/
def hexDigit (n : Nat) : Char :=
  if n < 10 then Char.ofNat (48 + n) else Char.ofNat (87 + n)

/-- Model of `hexutil.Encode`: the 0x-prefixed lower-case hex string of a byte
sequence. -/
def hexutilEncode (bs : List Nat) : String :=
  "0x" ++ String.mk (bs.map (fun b => [hexDigit (b / 16 % 16), hexDigit (b % 16)])).flatten

/-- Observable transport actions of the submitter. -/
inductive RPCEvent where
  | dial (url : String)
  | call (method : String) (param : String)
  | close
deriving DecidableEq, Repr

/-- Discriminator for remote-call events. -/
def RPCEvent.isCall : RPCEvent → Bool
  | RPCEvent.call _ _ => true
  | _ => false

/-- The coordination submitter `SendCrossTxRequestMsg`.  The transport is an
external collaborator, modelled by `dialResult` (outcome of `rpc.Dial`) and
`callResult` (`none` models the JSON-RPC call succeeding with a null/empty
result, `some e` a transport failure or coordinator error response `e`).
Returns the performed transport events and the final outcome (`none` success). -/
def SendCrossTxRequestMsg (dialResult : Except String Unit) (callResult : Option String)
    (rpcURL : String) (encodedPayload : List Nat) : List RPCEvent × Option String :=
  match dialResult with
  | Except.error e => ([RPCEvent.dial rpcURL], some ("could not connect to custom rpc: " ++ e))
  | Except.ok _ =>
    match callResult with
    | some e =>
      ([RPCEvent.dial rpcURL, RPCEvent.call sendTxRPCMethod (hexutilEncode encodedPayload),
        RPCEvent.close], some ("RPC call failed: " ++ e))
    | none =>
      ([RPCEvent.dial rpcURL, RPCEvent.call sendTxRPCMethod (hexutilEncode encodedPayload),
        RPCEvent.close], none)

/-! ## Transaction builders (transactions.go) -/

/-- The unsigned transfer/call parameters consumed by the builders. -/
structure TransactionDetails where
  To : String
  value : Int
  data : List Nat
  gasTipCap : Int
  gasFeeCap : Int
  gas : Nat
deriving DecidableEq, Repr

/-- The dynamic-fee (EIP-1559) transaction shape signed by the builders. -/
structure DynamicFeeTx where
  chainID : Nat
  nonce : Nat
  To : String
  value : Int
  gas : Nat
  gasTipCap : Int
  gasFeeCap : Int
  accessList : Option Unit
  data : List Nat
deriving DecidableEq, Repr

/-- A signed transaction: the signed payload plus the signature produced by the
external signing library. -/
structure SignedTx where
  txData : DynamicFeeTx
  sig : Nat
deriving DecidableEq, Repr

/-- Observable side effects of the builders that matter to the spec: a pending
nonce query against the account's chain. -/
inductive TxEffect where
  | nonceQuery
deriving DecidableEq, Repr

/-- The `txData` local both builders construct: the dynamic-fee transaction
with the account's chain id and the given nonce. -/
def buildDynamicFeeTx (tx : TransactionDetails) (ac : Account) (nonce : Nat) : DynamicFeeTx :=
  { chainID := ac.rollup.chainID, nonce := nonce, To := tx.To, value := tx.value,
    gas := tx.gas, gasTipCap := tx.gasTipCap, gasFeeCap := tx.gasFeeCap,
    accessList := none, data := tx.data }

/-- The auto-nonce builder `CreateTransaction`: queries the account's pending
nonce, checks key material, builds the dynamic-fee transaction with the queried
nonce, signs it with the London signer of the account's chain id, and
canonically serializes it.  `signTx` (signature production, may fail) and
`marshalBinary` (canonical serialization, may fail) are the external signing
library, passed as parameters. -/
def CreateTransaction (signTx : DynamicFeeTx → Nat → Nat → Except String Nat)
    (marshalBinary : SignedTx → Except String (List Nat))
    (tx : TransactionDetails) (ac : Account) :
    List TxEffect × Except String (SignedTx × List Nat) :=
  match ac.nonceResult with
  | Except.error e => ([TxEffect.nonceQuery], Except.error ("failed to get nonce: " ++ e))
  | Except.ok nonce =>
    match ac.privateKey with
    | none => ([TxEffect.nonceQuery], Except.error "private key is nil")
    | some pk =>
      match signTx (buildDynamicFeeTx tx ac nonce) ac.rollup.chainID pk with
      | Except.error e =>
        ([TxEffect.nonceQuery], Except.error ("failed to sign transaction: " ++ e))
      | Except.ok s =>
        match marshalBinary { txData := buildDynamicFeeTx tx ac nonce, sig := s } with
        | Except.error e =>
          ([TxEffect.nonceQuery], Except.error ("failed to marshal transaction: " ++ e))
        | Except.ok marshaledTx =>
          ([TxEffect.nonceQuery],
           Except.ok ({ txData := buildDynamicFeeTx tx ac nonce, sig := s }, marshaledTx))

/-- The explicit-nonce builder `CreateTransactionWithNonce`: identical to
`CreateTransaction` except that the supplied nonce is used directly and no
nonce query is made. -/
def CreateTransactionWithNonce (signTx : DynamicFeeTx → Nat → Nat → Except String Nat)
    (marshalBinary : SignedTx → Except String (List Nat))
    (tx : TransactionDetails) (ac : Account) (nonce : Nat) :
    List TxEffect × Except String (SignedTx × List Nat) :=
  match ac.privateKey with
  | none => ([], Except.error "private key is nil")
  | some pk =>
    match signTx (buildDynamicFeeTx tx ac nonce) ac.rollup.chainID pk with
    | Except.error e => ([], Except.error ("failed to sign transaction: " ++ e))
    | Except.ok s =>
      match marshalBinary { txData := buildDynamicFeeTx tx ac nonce, sig := s } with
      | Except.error e => ([], Except.error ("failed to marshal transaction: " ++ e))
      | Except.ok marshaledTx =>
        ([], Except.ok ({ txData := buildDynamicFeeTx tx ac nonce, sig := s }, marshaledTx))

/-! ## Session id generator (transactions.go, GenerateRandomSessionID) -/

/-- The exclusive upper bound passed to `rand.Int`: `new(big.Int).Lsh(big.NewInt(1), 63)`. -/
def generateRandomSessionIDMax : Nat := 1 <<< 63

/-- Outcome of the generator: a value, or a fatal process termination
(`logger.Fatal`), which never yields a value. -/
inductive SessionIDResult where
  | value (n : Nat)
  | fatal (msg : String)
deriving DecidableEq, Repr

/-- The session-id generator `GenerateRandomSessionID`.  The entropy source
(`crypto/rand`) is an external collaborator, modelled by `randInt`: given the
exclusive bound it either returns a uniformly drawn value below the bound or
fails when entropy is unavailable. -/
def GenerateRandomSessionID (randInt : Nat → Except String Nat) : SessionIDResult :=
  match randInt generateRandomSessionIDMax with
  | Except.error e => SessionIDResult.fatal ("failed to generate random session ID: " ++ e)
  | Except.ok n => SessionIDResult.value n

/-! ## The confirmation poller (transactions.go, GetTransactionDetails) -/

/-- Outcome of one `TransactionByHash` chain query: the hash is not found yet,
some other transport error occurred, or the transaction was found together with
its pending flag. -/
inductive ChainResp (Tx : Type) where
  | notFound
  | errOther (msg : String)
  | found (tx : Tx) (isPending : Bool)

/-- An execution receipt; `status` is the binary success/failure field. -/
structure Receipt where
  status : Nat
deriving DecidableEq, Repr

/-- Observable timing behavior of the poller: chain queries (numbered) and
in-process waits (milliseconds). -/
inductive PollEvent where
  | query (i : Nat)
  | wait (ms : Nat)
deriving DecidableEq, Repr

/-- Discriminator for query events. -/
def PollEvent.isQuery : PollEvent → Bool
  | PollEvent.query _ => true
  | _ => false

/-- Retry bound of the not-found phase (`maxRetries := 10`). -/
def maxRetries : Nat := 10

/-- Fixed wait between chain queries (`retryInterval := 600 * time.Millisecond`). -/
def retryInterval : Nat := 600

/-- The polling loop of `GetTransactionDetails`.  `txOracle i` is what the chain
answers to the i-th `TransactionByHash` query, `rcptOracle i` what
`TransactionReceipt` would answer after the i-th query, and `cancelOracle i`
whether the external cancellation signal fires during the wait after the i-th
query.  Arguments: retry counter, query index, fuel (number of loop iterations
still observed; `none` in the second component means the loop was still running
after `fuel` iterations).  Returns the event trace and, on return, the Go
result triple `(tx, receipt, err)` with `Option` for nil-ness. -/
def pollLoop {Tx : Type} (txOracle : Nat → ChainResp Tx)
    (rcptOracle : Nat → Except String Receipt) (cancelOracle : Nat → Bool)
    (txHash : String) :
    Nat → Nat → Nat → List PollEvent × Option (Option Tx × Option Receipt × Option String)
  | _, _, 0 => ([], none)
  | retryCount, q, fuel + 1 =>
    match txOracle q with
    | ChainResp.notFound =>
      if retryCount + 1 > maxRetries then
        ([PollEvent.query q],
         some (none, none,
           some ("transaction receipt not found after 10 retries for hash " ++ txHash)))
      else if cancelOracle q then
        ([PollEvent.query q],
         some (none, none, some ("context cancelled while waiting for transaction " ++ txHash)))
      else
        let r := pollLoop txOracle rcptOracle cancelOracle txHash (retryCount + 1) (q + 1) fuel
        (PollEvent.query q :: PollEvent.wait retryInterval :: r.1, r.2)
    | ChainResp.errOther e =>
      ([PollEvent.query q],
       some (none, none, some ("failed to get transaction by hash " ++ txHash ++ ": " ++ e)))
    | ChainResp.found _ true =>
      if cancelOracle q then
        ([PollEvent.query q],
         some (none, none, some ("context cancelled while waiting for transaction " ++ txHash)))
      else
        let r := pollLoop txOracle rcptOracle cancelOracle txHash retryCount (q + 1) fuel
        (PollEvent.query q :: PollEvent.wait retryInterval :: r.1, r.2)
    | ChainResp.found tx false =>
      match rcptOracle q with
      | Except.error e =>
        ([PollEvent.query q],
         some (none, none,
           some ("failed to get transaction receipt for hash " ++ txHash ++ ": " ++ e)))
      | Except.ok receipt => ([PollEvent.query q], some (some tx, some receipt, none))

/-- The confirmation poller `GetTransactionDetails`: dials the chain endpoint
(`dialResult` models `ethclient.DialContext`) and runs the polling loop from a
zero retry counter. -/
def GetTransactionDetails {Tx : Type} (dialResult : Except String Unit)
    (txOracle : Nat → ChainResp Tx) (rcptOracle : Nat → Except String Receipt)
    (cancelOracle : Nat → Bool) (rpcURL txHash : String) (fuel : Nat) :
    List PollEvent × Option (Option Tx × Option Receipt × Option String) :=
  match dialResult with
  | Except.error e =>
    ([], some (none, none, some ("failed to connect to RPC URL " ++ rpcURL ++ ": " ++ e)))
  | Except.ok _ => pollLoop txOracle rcptOracle cancelOracle txHash 0 0 fuel

/-- Expected trace of a polling run whose first `k + 1` queries (starting at
query index `q`) all report not-found: queries separated by fixed waits. -/
def notFoundTrace : Nat → Nat → List PollEvent
  | q, 0 => [PollEvent.query q]
  | q, k + 1 => PollEvent.query q :: PollEvent.wait retryInterval :: notFoundTrace (q + 1) k

/-- Expected trace of `fuel` iterations of the pending phase starting at query
index `q`: queries separated by fixed waits, never returning. -/
def pendingTrace : Nat → Nat → List PollEvent
  | _, 0 => []
  | q, fuel + 1 => PollEvent.query q :: PollEvent.wait retryInterval :: pendingTrace (q + 1) fuel

/-! ## Well-formedness and the spec-worded chainId encoding -/

/-- Executable well-formedness of a two-leg single-payload bundle: nonempty
sender id, all bytes below 256, exactly two legs each with exactly one payload
and a chain id in the uint64 domain. -/
def wellFormedBundle (m : Message) : Bool :=
  decide (m.senderId ≠ []) && m.senderId.all (fun b => b < 256) &&
    (match m.payload with
     | some (MessagePayload.xtRequest x) =>
       x.transactionRequests.length == 2 &&
       x.transactionRequests.all (fun tr =>
         decide (tr.chainId < 2 ^ 64) && tr.transaction.length == 1 &&
           tr.transaction.all (fun p => p.all (fun b => b < 256)))
     | none => false)

/-- Big-endian minimal byte encoding of a natural number (fuel-based). -/
def beBytesFuel : Nat → Nat → List Nat
  | _, 0 => []
  | 0, _ => []
  | fuel + 1, n => beBytesFuel fuel (n / 256) ++ [n % 256]

/-- Big-endian minimal byte encoding of a natural number. -/
def beBytesMinimal (n : Nat) : List Nat := beBytesFuel n n

/-- Modelled from the spec: the wire encoding §6 ascribes to a
`TransactionRequest`, with `chainId` a protocol-buffer bytes field
(field 1, wire type 2, tag byte 10) holding the big-endian minimal encoding of
the numeric chain id.  This definition follows the spec's words; the repository
serializes with the schema of the external `compose-network/specs` module
instead, in which `chainId` is numeric. -/
def encodeTransactionRequestSpec (tr : TransactionRequest) : List Nat :=
  (if tr.chainId = 0 then []
   else 10 :: (encodeVarint (beBytesMinimal tr.chainId).length ++ beBytesMinimal tr.chainId))
    ++ (tr.transaction.map encodeTxField).flatten

/-! ## Concrete sample data used to instantiate the theorems -/

/-- Sample chain handle with the chain id of rollup-a from the reference config. -/
def sampleRollupA : Rollup :=
  { rpcURL := "http://localhost:18545", chainID := 77777, name := "rollup-a" }

/-- Sample chain handle with the chain id of rollup-b from the reference config. -/
def sampleRollupB : Rollup :=
  { rpcURL := "http://localhost:28545", chainID := 88888, name := "rollup-b" }

/-- Sample funded account on rollup-a whose pending nonce query answers 5. -/
def sampleAccountA : Account :=
  { privateKey := some 1, address := "0xA", rollup := sampleRollupA,
    nonceResult := Except.ok 5 }

/-- Sample funded account on rollup-b whose pending nonce query answers 7. -/
def sampleAccountB : Account :=
  { privateKey := some 2, address := "0xB", rollup := sampleRollupB,
    nonceResult := Except.ok 7 }

/-- Sample transfer parameters. -/
def sampleTxDetails : TransactionDetails :=
  { To := "0xB", value := 500, data := [1, 2, 3], gasTipCap := 1000000000,
    gasFeeCap := 20000000000, gas := 900000 }

/-- Sample signing collaborator that always signs with signature 9. -/
def sampleSignTx : DynamicFeeTx → Nat → Nat → Except String Nat := fun _ _ _ => Except.ok 9

/-- Sample canonical serializer: the call data followed by the signature byte. -/
def sampleMarshal : SignedTx → Except String (List Nat) :=
  fun st => Except.ok (st.txData.data ++ [st.sig % 256])

/-- The signed transaction the sample collaborators produce for
`sampleTxDetails` on `sampleAccountA` with nonce 5. -/
def sampleSignedTx : SignedTx :=
  { txData :=
      { chainID := 77777, nonce := 5, To := "0xB", value := 500, gas := 900000,
        gasTipCap := 1000000000, gasFeeCap := 20000000000, accessList := none,
        data := [1, 2, 3] }
    sig := 9 }

/-- The canonical bytes the sample serializer produces for `sampleSignedTx`. -/
def sampleMarshalBytes : List Nat := [1, 2, 3, 9]

/-- Sample two-leg bundle built by the bundle encoder from the sample accounts. -/
def sampleBundle : Message :=
  CreateCrossTxRequestMsgStruct sampleAccountA sampleAccountB [222] [173]

/-! ## Wire-level lemmas -/

/-- A varint encoding is never empty. -/
theorem encodeVarintFuel_length_pos (fuel n : Nat) : 1 ≤ (encodeVarintFuel fuel n).length := by
  cases fuel with
  | zero => simp [encodeVarintFuel]
  | succ f =>
    unfold encodeVarintFuel
    split <;> simp

/-- Parsing inverts the fuel-based varint encoder whenever the fuel dominates
the value. -/
theorem parseVarint_encodeVarintFuel (fuel : Nat) :
    ∀ n : Nat, n ≤ fuel → ∀ rest : List Nat,
      parseVarint (encodeVarintFuel fuel n ++ rest) = some (n, rest) := by
  induction fuel with
  | zero =>
    intro n hn rest
    have h0 : n = 0 := Nat.le_zero.mp hn
    subst h0
    simp [encodeVarintFuel, parseVarint]
  | succ f ih =>
    intro n hn rest
    by_cases h : n < 128
    · simp [encodeVarintFuel, h, parseVarint]
    · have hpos : 0 < n := by omega
      have hdiv : n / 128 ≤ f := by
        have := Nat.div_lt_self hpos (show 1 < 128 by omega)
        omega
      have hbig : ¬ (n % 128 + 128 < 128) := by omega
      simp only [encodeVarintFuel, if_neg h, List.cons_append, parseVarint, if_neg hbig]
      rw [ih (n / 128) hdiv rest]
      simp only [Option.some.injEq, Prod.mk.injEq, and_true]
      omega

/-- Parsing inverts the varint encoder. -/
theorem parseVarint_encodeVarint (n : Nat) (rest : List Nat) :
    parseVarint (encodeVarint n ++ rest) = some (n, rest) :=
  parseVarint_encodeVarintFuel n n (Nat.le_refl n) rest

/-- Taking the length of the left summand of an append returns it. -/
theorem take_length_append (a b : List Nat) : (a ++ b).take a.length = a := by
  induction a with
  | nil => simp
  | cons x t ih => simp [ih]

/-- Dropping the length of the left summand of an append returns the right one. -/
theorem drop_length_append (a b : List Nat) : (a ++ b).drop a.length = b := by
  induction a with
  | nil => simp
  | cons x t ih => simp [ih]

/-- Parsing inverts the length-delimited encoding. -/
theorem parseLenDelim_encode (content rest : List Nat) :
    parseLenDelim (encodeVarint content.length ++ (content ++ rest)) = some (content, rest) := by
  unfold parseLenDelim
  rw [parseVarint_encodeVarint]
  have hle : content.length ≤ (content ++ rest).length := by simp
  simp [hle, take_length_append, drop_length_append]

/-- Parsing inverts the length-delimited encoding when nothing follows. -/
theorem parseLenDelim_encode_nil (content : List Nat) :
    parseLenDelim (encodeVarint content.length ++ content) = some (content, []) := by
  have h := parseLenDelim_encode content []
  simpa using h

/-- The decoder field loop accumulates the repeated `transaction` payload fields
exactly as encoded. -/
theorem parseTRFields_txs (txs : List (List Nat)) :
    ∀ (fuel : Nat) (acc : TransactionRequest),
      ((txs.map encodeTxField).flatten).length ≤ fuel →
      parseTRFields fuel ((txs.map encodeTxField).flatten) acc
        = some { acc with transaction := acc.transaction ++ txs } := by
  induction txs with
  | nil =>
    intro fuel acc _h
    cases fuel <;> simp [parseTRFields]
  | cons b t ih =>
    intro fuel acc h
    have hb : 1 ≤ (encodeVarint b.length).length := encodeVarintFuel_length_pos _ _
    have hshape : ((List.map encodeTxField (b :: t)).flatten)
        = 18 :: (encodeVarint b.length ++ (b ++ (List.map encodeTxField t).flatten)) := by
      simp [encodeTxField, List.append_assoc]
    rw [hshape] at h ⊢
    cases fuel with
    | zero => simp at h
    | succ f =>
      have hlen : ((List.map encodeTxField t).flatten).length ≤ f := by
        simp only [List.length_cons, List.length_append] at h
        omega
      simp only [parseTRFields, parseVarint]
      norm_num
      rw [parseLenDelim_encode]
      simp only []
      rw [ih f _ hlen]
      simp [List.append_assoc]

/-- With enough fuel the field loop decodes an encoded `TransactionRequest`
from the default accumulator. -/
theorem parseTRFields_encode (c : Nat) (txs : List (List Nat)) :
    ∀ fuel : Nat,
      (encodeTransactionRequest { chainId := c, transaction := txs }).length ≤ fuel →
      parseTRFields fuel (encodeTransactionRequest { chainId := c, transaction := txs })
        { chainId := 0, transaction := [] }
        = some { chainId := c, transaction := txs } := by
  intro fuel h
  by_cases hc : c = 0
  · subst hc
    have hshape : encodeTransactionRequest { chainId := 0, transaction := txs }
        = (txs.map encodeTxField).flatten := by
      simp [encodeTransactionRequest]
    rw [hshape] at h ⊢
    rw [parseTRFields_txs txs fuel _ h]
    simp
  · have hshape : encodeTransactionRequest { chainId := c, transaction := txs }
        = 8 :: (encodeVarint c ++ (txs.map encodeTxField).flatten) := by
      simp [encodeTransactionRequest, hc]
    rw [hshape] at h ⊢
    cases fuel with
    | zero => simp at h
    | succ f =>
      have hb : 1 ≤ (encodeVarint c).length := encodeVarintFuel_length_pos _ _
      have hlen : ((txs.map encodeTxField).flatten).length ≤ f := by
        simp only [List.length_cons, List.length_append] at h
        omega
      simp only [parseTRFields, parseVarint]
      norm_num
      rw [parseVarint_encodeVarint]
      simp only []
      rw [parseTRFields_txs txs f _ hlen]
      simp

/-- Decoding inverts the `TransactionRequest` encoder. -/
theorem parseTransactionRequest_encode (tr : TransactionRequest) :
    parseTransactionRequest (encodeTransactionRequest tr) = some tr := by
  obtain ⟨c, txs⟩ := tr
  unfold parseTransactionRequest
  exact parseTRFields_encode c txs _ (Nat.le_refl _)

/-- The decoder field loop accumulates the repeated `transactionRequests`
fields exactly as encoded. -/
theorem parseXTFields_trs (trs : List TransactionRequest) :
    ∀ (fuel : Nat) (acc : XTRequest),
      ((trs.map encodeTRField).flatten).length ≤ fuel →
      parseXTFields fuel ((trs.map encodeTRField).flatten) acc
        = some { acc with transactionRequests := acc.transactionRequests ++ trs } := by
  induction trs with
  | nil =>
    intro fuel acc _h
    cases fuel <;> simp [parseXTFields]
  | cons tr t ih =>
    intro fuel acc h
    have hb : 1 ≤ (encodeVarint (encodeTransactionRequest tr).length).length :=
      encodeVarintFuel_length_pos _ _
    have hshape : ((List.map encodeTRField (tr :: t)).flatten)
        = 10 :: (encodeVarint (encodeTransactionRequest tr).length
            ++ (encodeTransactionRequest tr ++ (List.map encodeTRField t).flatten)) := by
      simp [encodeTRField, List.append_assoc]
    rw [hshape] at h ⊢
    cases fuel with
    | zero => simp at h
    | succ f =>
      have hlen : ((List.map encodeTRField t).flatten).length ≤ f := by
        simp only [List.length_cons, List.length_append] at h
        omega
      simp only [parseXTFields, parseVarint]
      norm_num
      rw [parseLenDelim_encode]
      simp only []
      rw [parseTransactionRequest_encode tr]
      simp only []
      rw [ih f _ hlen]
      simp [List.append_assoc]

/-- Decoding inverts the `XTRequest` encoder. -/
theorem parseXTRequest_encode (x : XTRequest) :
    parseXTRequest (encodeXTRequest x) = some x := by
  obtain ⟨trs⟩ := x
  unfold parseXTRequest
  have h := parseXTFields_trs trs ((encodeXTRequest { transactionRequests := trs }).length)
    { transactionRequests := [] } (Nat.le_refl _)
  rw [show encodeXTRequest { transactionRequests := trs } = (trs.map encodeTRField).flatten
    from rfl] at h ⊢
  rw [h]
  simp

/-- The message field loop accepts empty input with any fuel. -/
theorem parseMsgFields_nil (fuel : Nat) (acc : Message) :
    parseMsgFields fuel [] acc = some acc := by
  cases fuel <;> simp [parseMsgFields]

/-- The message field loop decodes an encoded payload (oneof) field, setting
the payload of the accumulator. -/
theorem parseMsgFields_payload (x : XTRequest) :
    ∀ (fuel : Nat) (acc : Message), 1 ≤ fuel →
      parseMsgFields fuel
        (18 :: (encodeVarint (encodeXTRequest x).length ++ encodeXTRequest x)) acc
        = some { acc with payload := some (MessagePayload.xtRequest x) } := by
  intro fuel acc hf
  cases fuel with
  | zero => omega
  | succ f =>
    simp only [parseMsgFields, parseVarint]
    norm_num
    rw [parseLenDelim_encode_nil]
    simp only []
    rw [parseXTRequest_encode x]
    simp only []
    rw [parseMsgFields_nil]

/-- Decoding inverts the `Message` encoder: the model of
`proto.Unmarshal (proto.Marshal m)` recovers `m` exactly. -/
theorem decodeMessage_encodeMessage (m : Message) :
    decodeMessage (encodeMessage m) = some m := by
  obtain ⟨sid, pay⟩ := m
  by_cases hs : sid = []
  · subst hs
    cases pay with
    | none =>
      simp [decodeMessage, encodeMessage, parseMsgFields]
    | some p =>
      obtain ⟨x⟩ := p
      have hshape : encodeMessage { senderId := [], payload := some (MessagePayload.xtRequest x) }
          = 18 :: (encodeVarint (encodeXTRequest x).length ++ encodeXTRequest x) := by
        simp [encodeMessage]
      unfold decodeMessage
      rw [hshape]
      rw [parseMsgFields_payload x _ _ (by simp)]
  · have hsidlen : 1 ≤ (encodeVarint sid.length).length := encodeVarintFuel_length_pos _ _
    cases pay with
    | none =>
      have hshape : encodeMessage { senderId := sid, payload := none }
          = 10 :: (encodeVarint sid.length ++ sid) := by
        simp [encodeMessage, hs]
      unfold decodeMessage
      rw [hshape]
      simp only [List.length_cons, parseMsgFields, parseVarint]
      norm_num
      rw [parseLenDelim_encode_nil]
      simp only []
      rw [parseMsgFields_nil]
    | some p =>
      obtain ⟨x⟩ := p
      have hshape : encodeMessage { senderId := sid, payload := some (MessagePayload.xtRequest x) }
          = 10 :: (encodeVarint sid.length ++ (sid
              ++ (18 :: (encodeVarint (encodeXTRequest x).length ++ encodeXTRequest x)))) := by
        simp [encodeMessage, hs]
      unfold decodeMessage
      rw [hshape]
      simp only [List.length_cons, parseMsgFields, parseVarint]
      norm_num
      rw [parseLenDelim_encode]
      simp only []
      rw [parseMsgFields_payload x _ _ (by omega)]

/-! ## Poller lemmas -/

/-- A run of the polling loop whose queries all report not-found: starting with
`retryCount + k = maxRetries` and enough fuel, it performs `k + 1` queries
separated by fixed waits and returns the not-found error. -/
theorem pollLoop_notFound_run {Tx : Type} (txOracle : Nat → ChainResp Tx)
    (rcptOracle : Nat → Except String Receipt) (cancelOracle : Nat → Bool) (txHash : String)
    (hnf : ∀ i, txOracle i = ChainResp.notFound) (hc : ∀ i, cancelOracle i = false) :
    ∀ (k retryCount q fuel : Nat), retryCount + k = maxRetries → k < fuel →
      pollLoop txOracle rcptOracle cancelOracle txHash retryCount q fuel
        = (notFoundTrace q k,
           some (none, none,
             some ("transaction receipt not found after 10 retries for hash " ++ txHash))) := by
  intro k
  induction k with
  | zero =>
    intro rc q fuel hrc hf
    cases fuel with
    | zero => omega
    | succ f =>
      simp only [pollLoop, hnf q, hc q]
      rw [if_pos (show rc + 1 > maxRetries by omega)]
      simp [notFoundTrace]
  | succ kk ih =>
    intro rc q fuel hrc hf
    cases fuel with
    | zero => omega
    | succ f =>
      simp only [pollLoop, hnf q, hc q]
      rw [if_neg (show ¬ rc + 1 > maxRetries by omega)]
      simp only [Bool.false_eq_true, if_false]
      rw [ih (rc + 1) (q + 1) f (by omega) (by omega)]
      simp [notFoundTrace]

/-- A run of the polling loop that keeps reporting the transaction as found but
pending from query `q` on: it re-queries with the fixed wait every iteration
and never returns, whatever the fuel. -/
theorem pollLoop_pending_run {Tx : Type} (txOracle : Nat → ChainResp Tx)
    (rcptOracle : Nat → Except String Receipt) (cancelOracle : Nat → Bool) (txHash : String)
    (tx : Tx) (q0 : Nat)
    (hp : ∀ i, q0 ≤ i → txOracle i = ChainResp.found tx true)
    (hc : ∀ i, cancelOracle i = false) :
    ∀ (fuel rc q : Nat), q0 ≤ q →
      pollLoop txOracle rcptOracle cancelOracle txHash rc q fuel = (pendingTrace q fuel, none) := by
  intro fuel
  induction fuel with
  | zero =>
    intro rc q _hq
    simp [pollLoop, pendingTrace]
  | succ f ih =>
    intro rc q hq
    simp only [pollLoop, hp q hq, hc q]
    simp only [Bool.false_eq_true, if_false]
    rw [ih rc (q + 1) (by omega)]
    simp [pendingTrace]

/-- Every value the polling loop returns is all-or-nothing: either transaction
and receipt both present with no error, or both absent with an error. -/
theorem pollLoop_result_shape {Tx : Type} (txOracle : Nat → ChainResp Tx)
    (rcptOracle : Nat → Except String Receipt) (cancelOracle : Nat → Bool) (txHash : String) :
    ∀ (fuel rc q : Nat) (res : Option Tx × Option Receipt × Option String),
      (pollLoop txOracle rcptOracle cancelOracle txHash rc q fuel).2 = some res →
      (∃ tx rcpt, res = (some tx, some rcpt, none))
        ∨ (res.1 = none ∧ res.2.1 = none ∧ ∃ e, res.2.2 = some e) := by
  intro fuel
  induction fuel with
  | zero =>
    intro rc q res h
    simp [pollLoop] at h
  | succ f ih =>
    intro rc q res h
    cases hresp : txOracle q with
    | notFound =>
      simp only [pollLoop, hresp] at h
      by_cases hb : rc + 1 > maxRetries
      · rw [if_pos hb] at h
        simp only [Option.some.injEq] at h
        right
        rw [← h]
        exact ⟨rfl, rfl, _, rfl⟩
      · rw [if_neg hb] at h
        by_cases hcq : cancelOracle q = true
        · rw [if_pos hcq] at h
          simp only [Option.some.injEq] at h
          right
          rw [← h]
          exact ⟨rfl, rfl, _, rfl⟩
        · rw [if_neg hcq] at h
          exact ih (rc + 1) (q + 1) res h
    | errOther e =>
      simp only [pollLoop, hresp, Option.some.injEq] at h
      right
      rw [← h]
      exact ⟨rfl, rfl, _, rfl⟩
    | found tx isPending =>
      cases isPending with
      | true =>
        simp only [pollLoop, hresp] at h
        by_cases hcq : cancelOracle q = true
        · rw [if_pos hcq] at h
          simp only [Option.some.injEq] at h
          right
          rw [← h]
          exact ⟨rfl, rfl, _, rfl⟩
        · rw [if_neg hcq] at h
          exact ih rc (q + 1) res h
      | false =>
        simp only [pollLoop, hresp] at h
        cases hr : rcptOracle q with
        | error e =>
          simp only [hr, Option.some.injEq] at h
          right
          rw [← h]
          exact ⟨rfl, rfl, _, rfl⟩
        | ok rcpt =>
          simp only [hr, Option.some.injEq] at h
          left
          exact ⟨tx, rcpt, h.symm⟩

/-! ## Claim theorems -/

/-- C1: for every pair of accounts and signed-transaction byte sequences, the
bundle encoder builds a `Message` whose sender id is the string "client" and
whose `XTRequest` holds exactly two `TransactionRequest` legs in argument
order, each carrying the corresponding account's chain id and the single
corresponding signed-transaction byte sequence as its only payload; the
encoder's output is the serialization of exactly that message. -/
theorem CreateCrossTxRequestMsg_structure (ac1 ac2 : Account) (signedTx1 signedTx2 : List Nat)
    (h1 : ac1.rollup.chainID < 2 ^ 64) (h2 : ac2.rollup.chainID < 2 ^ 64) :
    (CreateCrossTxRequestMsgStruct ac1 ac2 signedTx1 signedTx2).senderId
        = "client".toList.map Char.toNat
    ∧ (CreateCrossTxRequestMsgStruct ac1 ac2 signedTx1 signedTx2).payload
        = some (MessagePayload.xtRequest
            { transactionRequests :=
                [ { chainId := ac1.rollup.chainID, transaction := [signedTx1] },
                  { chainId := ac2.rollup.chainID, transaction := [signedTx2] } ] })
    ∧ CreateCrossTxRequestMsg ac1 ac2 signedTx1 signedTx2
        = Except.ok (encodeMessage (CreateCrossTxRequestMsgStruct ac1 ac2 signedTx1 signedTx2)) := by
  refine ⟨rfl, ?_, rfl⟩
  simp only [CreateCrossTxRequestMsgStruct, Nat.mod_eq_of_lt h1, Nat.mod_eq_of_lt h2]

/-- Witness for C1 at the sample accounts (chain ids 77777 and 88888) and
concrete signed-transaction bytes. -/
theorem CreateCrossTxRequestMsg_structure_witness :
    (CreateCrossTxRequestMsgStruct sampleAccountA sampleAccountB [222] [173]).senderId
        = "client".toList.map Char.toNat
    ∧ (CreateCrossTxRequestMsgStruct sampleAccountA sampleAccountB [222] [173]).payload
        = some (MessagePayload.xtRequest
            { transactionRequests :=
                [ { chainId := 77777, transaction := [[222]] },
                  { chainId := 88888, transaction := [[173]] } ] }) := by
  have h := CreateCrossTxRequestMsg_structure sampleAccountA sampleAccountB [222] [173]
    (by decide) (by decide)
  exact ⟨h.1, h.2.1⟩

/-- C2 counterexample: at chain id 77777 with one concrete payload, the wire
encoding the code produces differs from the spec-worded encoding in which
`chainId` is a length-delimited bytes field holding the big-endian minimal
encoding: the code emits tag byte 8 (field 1, wire type 0, a varint) followed
by the varint of the numeric id, not tag byte 10 followed by a length and the
big-endian bytes. -/
theorem chainId_wire_not_bytes_field :
    encodeTransactionRequest { chainId := 77777, transaction := [[222, 173]] }
      ≠ encodeTransactionRequestSpec { chainId := 77777, transaction := [[222, 173]] }
    ∧ encodeTransactionRequest { chainId := 77777, transaction := [[222, 173]] }
      = 8 :: (encodeVarint 77777 ++ encodeTxField [222, 173])
    ∧ encodeTransactionRequestSpec { chainId := 77777, transaction := [[222, 173]] }
      = 10 :: (encodeVarint 3 ++ ([1, 47, 209] ++ encodeTxField [222, 173])) := by
  decide

/-- C2 amended: in the serialized `TransactionRequest`, the chainId field is
encoded as a varint field (field 1, wire type 0, tag byte 8) carrying the
target chain's numeric id directly: parsing the leg's bytes yields tag 8 and
then the exact numeric chain id. -/
theorem chainId_wire_varint (tr : TransactionRequest) (h : tr.chainId ≠ 0) :
    parseVarint (encodeTransactionRequest tr)
      = some (8, encodeVarint tr.chainId ++ (tr.transaction.map encodeTxField).flatten)
    ∧ parseVarint (encodeVarint tr.chainId ++ (tr.transaction.map encodeTxField).flatten)
      = some (tr.chainId, (tr.transaction.map encodeTxField).flatten) := by
  constructor
  · rw [show encodeTransactionRequest tr
        = 8 :: (encodeVarint tr.chainId ++ (tr.transaction.map encodeTxField).flatten) by
      simp [encodeTransactionRequest, h]]
    simp [parseVarint]
  · exact parseVarint_encodeVarint _ _

/-- Witness for the amended C2 at chain id 77777. -/
theorem chainId_wire_varint_witness :
    parseVarint (encodeTransactionRequest { chainId := 77777, transaction := [[1]] })
      = some (8, encodeVarint 77777 ++ ((List.map encodeTxField [[1]]).flatten))
    ∧ parseVarint (encodeVarint 77777 ++ ((List.map encodeTxField [[1]]).flatten))
      = some (77777, (List.map encodeTxField [[1]]).flatten) :=
  chainId_wire_varint { chainId := 77777, transaction := [[1]] } (by decide)

/-- C4: decoding the bytes the bundle encoder produces recovers the original
bundle exactly — sender id, chain ids and payload bytes — for every well-formed
two-leg single-payload bundle. -/
theorem decode_encode_bundle (m : Message) (_h : wellFormedBundle m = true) :
    decodeMessage (encodeMessage m) = some m :=
  decodeMessage_encodeMessage m

/-- Witness for C4 at the sample bundle. -/
theorem decode_encode_bundle_witness :
    wellFormedBundle sampleBundle = true
    ∧ decodeMessage (encodeMessage sampleBundle) = some sampleBundle :=
  ⟨by decide, decode_encode_bundle sampleBundle (by decide)⟩

/-- C3: when every chain query reports the hash as not found, the poller issues
exactly 11 queries (1 initial + 10 retries), each separated by one fixed 600 ms
wait, and returns the not-found error naming 10 retries and the hash; given at
least 11 iterations of fuel it always terminates this way (so it issues at
most 11 queries). -/
theorem GetTransactionDetails_notFound_bound {Tx : Type} (txOracle : Nat → ChainResp Tx)
    (rcptOracle : Nat → Except String Receipt) (cancelOracle : Nat → Bool)
    (txHash : String) (fuel : Nat)
    (hnf : ∀ i, txOracle i = ChainResp.notFound) (hc : ∀ i, cancelOracle i = false)
    (hf : 11 ≤ fuel) :
    pollLoop txOracle rcptOracle cancelOracle txHash 0 0 fuel
      = (notFoundTrace 0 10,
         some (none, none,
           some ("transaction receipt not found after 10 retries for hash " ++ txHash)))
    ∧ (notFoundTrace 0 10).countP PollEvent.isQuery = 11
    ∧ notFoundTrace 0 10
        = [PollEvent.query 0, PollEvent.wait 600, PollEvent.query 1, PollEvent.wait 600,
           PollEvent.query 2, PollEvent.wait 600, PollEvent.query 3, PollEvent.wait 600,
           PollEvent.query 4, PollEvent.wait 600, PollEvent.query 5, PollEvent.wait 600,
           PollEvent.query 6, PollEvent.wait 600, PollEvent.query 7, PollEvent.wait 600,
           PollEvent.query 8, PollEvent.wait 600, PollEvent.query 9, PollEvent.wait 600,
           PollEvent.query 10] := by
  refine ⟨?_, by decide, by decide⟩
  exact pollLoop_notFound_run txOracle rcptOracle cancelOracle txHash hnf hc 10 0 0 fuel
    (by simp [maxRetries]) (by omega)

/-- Witness for C3: a concrete all-not-found run with fuel 11. -/
theorem GetTransactionDetails_notFound_bound_witness :
    pollLoop (fun _ => (ChainResp.notFound : ChainResp Nat))
        (fun _ => Except.ok { status := 1 }) (fun _ => false) "0xabc" 0 0 11
      = (notFoundTrace 0 10,
         some (none, none,
           some ("transaction receipt not found after 10 retries for hash " ++ "0xabc"))) :=
  (GetTransactionDetails_notFound_bound (fun _ => ChainResp.notFound)
    (fun _ => Except.ok { status := 1 }) (fun _ => false) "0xabc" 11
    (fun _ => rfl) (fun _ => rfl) (by omega)).1

/-- C6: once the chain reports the transaction as found but still pending on
every query from some point on (and no external cancellation fires), the
poller re-queries forever with the same fixed 600 ms interval and never
returns — in particular it never returns the not-found error and never times
out, whatever the iteration budget. -/
theorem GetTransactionDetails_pending_unbounded {Tx : Type} (txOracle : Nat → ChainResp Tx)
    (rcptOracle : Nat → Except String Receipt) (cancelOracle : Nat → Bool)
    (txHash : String) (tx : Tx) (q0 : Nat)
    (hp : ∀ i, q0 ≤ i → txOracle i = ChainResp.found tx true)
    (hc : ∀ i, cancelOracle i = false) :
    ∀ (fuel rc q : Nat), q0 ≤ q →
      pollLoop txOracle rcptOracle cancelOracle txHash rc q fuel
        = (pendingTrace q fuel, none) :=
  pollLoop_pending_run txOracle rcptOracle cancelOracle txHash tx q0 hp hc

/-- Witness for C6: a concrete always-pending run that is still running after
5 iterations. -/
theorem GetTransactionDetails_pending_unbounded_witness :
    pollLoop (fun _ => ChainResp.found (0 : Nat) true) (fun _ => Except.ok { status := 1 })
        (fun _ => false) "0xdef" 0 0 5
      = (pendingTrace 0 5, none) :=
  GetTransactionDetails_pending_unbounded (fun _ => ChainResp.found 0 true)
    (fun _ => Except.ok { status := 1 }) (fun _ => false) "0xdef" 0 0
    (fun _ _ => rfl) (fun _ => rfl) 5 0 0 (Nat.le_refl 0)

/-- C9: every return of the confirmation poller is all-or-nothing — a non-nil
transaction and non-nil receipt with nil error, or nil transaction and nil
receipt with a non-nil error; and a mined transaction whose receipt reports
reverted status is returned with a nil error, the receipt carried as-is. -/
theorem GetTransactionDetails_all_or_nothing {Tx : Type} :
    (∀ (dialResult : Except String Unit) (txOracle : Nat → ChainResp Tx)
        (rcptOracle : Nat → Except String Receipt) (cancelOracle : Nat → Bool)
        (rpcURL txHash : String) (fuel : Nat)
        (res : Option Tx × Option Receipt × Option String),
      (GetTransactionDetails dialResult txOracle rcptOracle cancelOracle rpcURL txHash fuel).2
          = some res →
      (∃ tx rcpt, res = (some tx, some rcpt, none))
        ∨ (res.1 = none ∧ res.2.1 = none ∧ ∃ e, res.2.2 = some e))
    ∧ (∀ (txOracle : Nat → ChainResp Tx) (rcptOracle : Nat → Except String Receipt)
        (cancelOracle : Nat → Bool) (txHash : String) (tx : Tx) (rcpt : Receipt)
        (rc q fuel : Nat),
      txOracle q = ChainResp.found tx false → rcptOracle q = Except.ok rcpt →
      rcpt.status = 0 →
      pollLoop txOracle rcptOracle cancelOracle txHash rc q (fuel + 1)
        = ([PollEvent.query q], some (some tx, some rcpt, none))) := by
  constructor
  · intro dialResult txOracle rcptOracle cancelOracle rpcURL txHash fuel res h
    cases dialResult with
    | error e =>
      simp only [GetTransactionDetails, Option.some.injEq] at h
      right
      rw [← h]
      exact ⟨rfl, rfl, _, rfl⟩
    | ok u =>
      simp only [GetTransactionDetails] at h
      exact pollLoop_result_shape txOracle rcptOracle cancelOracle txHash fuel 0 0 res h
  · intro txOracle rcptOracle cancelOracle txHash tx rcpt rc q fuel hfound hrcpt _hstatus
    simp only [pollLoop, hfound, hrcpt]

/-- Witness for C9: a concrete run that finds the transaction mined with a
reverted receipt (status 0) and returns it with a nil error. -/
theorem GetTransactionDetails_all_or_nothing_witness :
    pollLoop (fun _ => ChainResp.found (7 : Nat) false) (fun _ => Except.ok { status := 0 })
        (fun _ => false) "0xaa" 0 0 1
      = ([PollEvent.query 0], some (some 7, some { status := 0 }, none)) :=
  (@GetTransactionDetails_all_or_nothing Nat).2 (fun _ => ChainResp.found 7 false)
    (fun _ => Except.ok { status := 0 }) (fun _ => false) "0xaa" 7 { status := 0 } 0 0 0
    rfl rfl rfl

/-- C5: for every endpoint and encoded bundle — once the transient connection
is open — the submitter issues exactly one remote call, with method
`eth_sendXTransaction` and the 0x-prefixed hex encoding of the bundle bytes as
its sole parameter, closes the connection whether the call succeeds or fails,
succeeds exactly when the call reports a null/empty result, and surfaces the
underlying message of any transport failure or coordinator error with no
retry; if even dialing fails, no call is made and the dial error is surfaced. -/
theorem SendCrossTxRequestMsg_contract (dialResult : Except String Unit)
    (callResult : Option String) (rpcURL : String) (encodedPayload : List Nat) :
    (dialResult = Except.ok () →
      ((SendCrossTxRequestMsg dialResult callResult rpcURL encodedPayload).1.countP
          RPCEvent.isCall = 1
        ∧ RPCEvent.call sendTxRPCMethod (hexutilEncode encodedPayload)
            ∈ (SendCrossTxRequestMsg dialResult callResult rpcURL encodedPayload).1
        ∧ RPCEvent.close ∈ (SendCrossTxRequestMsg dialResult callResult rpcURL encodedPayload).1
        ∧ ((SendCrossTxRequestMsg dialResult callResult rpcURL encodedPayload).2 = none
            ↔ callResult = none)
        ∧ ∀ e, callResult = some e →
            (SendCrossTxRequestMsg dialResult callResult rpcURL encodedPayload).2
              = some ("RPC call failed: " ++ e)))
    ∧ (∀ e, dialResult = Except.error e →
        (SendCrossTxRequestMsg dialResult callResult rpcURL encodedPayload).2
            = some ("could not connect to custom rpc: " ++ e)
          ∧ (SendCrossTxRequestMsg dialResult callResult rpcURL encodedPayload).1.countP
              RPCEvent.isCall = 0) := by
  constructor
  · intro hd
    subst hd
    cases callResult with
    | none =>
      refine ⟨?_, ?_, ?_, by simp [SendCrossTxRequestMsg], ?_⟩
      · simp [SendCrossTxRequestMsg, List.countP_cons, RPCEvent.isCall]
      · simp [SendCrossTxRequestMsg]
      · simp [SendCrossTxRequestMsg]
      · intro e he
        simp at he
    | some msg =>
      refine ⟨?_, ?_, ?_, by simp [SendCrossTxRequestMsg], ?_⟩
      · simp [SendCrossTxRequestMsg, List.countP_cons, RPCEvent.isCall]
      · simp [SendCrossTxRequestMsg]
      · simp [SendCrossTxRequestMsg]
      · intro e he
        simp only [Option.some.injEq] at he
        subst he
        simp [SendCrossTxRequestMsg]
  · intro e he
    subst he
    constructor
    · simp [SendCrossTxRequestMsg]
    · simp [SendCrossTxRequestMsg, List.countP_cons, RPCEvent.isCall]

/-- Witness for C5: a successful submission of a one-byte bundle. -/
theorem SendCrossTxRequestMsg_contract_witness :
    (SendCrossTxRequestMsg (Except.ok ()) none "http://localhost:18545" [222]).1.countP
        RPCEvent.isCall = 1
    ∧ RPCEvent.call sendTxRPCMethod (hexutilEncode [222])
        ∈ (SendCrossTxRequestMsg (Except.ok ()) none "http://localhost:18545" [222]).1
    ∧ ((SendCrossTxRequestMsg (Except.ok ()) none "http://localhost:18545" [222]).2 = none
        ↔ (none : Option String) = none) := by
  have h := (SendCrossTxRequestMsg_contract (Except.ok ()) none "http://localhost:18545"
    [222]).1 rfl
  exact ⟨h.1, h.2.1, h.2.2.2.1⟩

/-- The explicit-nonce builder embeds the supplied nonce in any signed
transaction it returns. -/
theorem createTransactionWithNonce_embeds_nonce
    (signTx : DynamicFeeTx → Nat → Nat → Except String Nat)
    (marshalBinary : SignedTx → Except String (List Nat))
    (tx : TransactionDetails) (ac : Account) (nonce : Nat) (st : SignedTx) (bytes : List Nat)
    (h : (CreateTransactionWithNonce signTx marshalBinary tx ac nonce).2
        = Except.ok (st, bytes)) :
    st.txData.nonce = nonce := by
  unfold CreateTransactionWithNonce at h
  split at h
  · simp at h
  · split at h
    · simp at h
    · split at h
      · simp at h
      · simp only [Except.ok.injEq, Prod.mk.injEq] at h
        rw [← h.1]
        rfl

/-- Given an agreeing queried nonce, the auto-nonce builder returns exactly
what the explicit-nonce builder returns. -/
theorem createTransaction_eq_withNonce
    (signTx : DynamicFeeTx → Nat → Nat → Except String Nat)
    (marshalBinary : SignedTx → Except String (List Nat))
    (tx : TransactionDetails) (ac : Account) (n : Nat)
    (h : ac.nonceResult = Except.ok n) :
    (CreateTransaction signTx marshalBinary tx ac).2
      = (CreateTransactionWithNonce signTx marshalBinary tx ac n).2 := by
  simp only [CreateTransaction, CreateTransactionWithNonce, h]
  split
  · rfl
  · split
    · rfl
    · split <;> rfl

/-- C7: the explicit-nonce builder performs no nonce query and embeds exactly
the supplied nonce in the transaction it signs, whereas the auto-nonce builder
performs exactly one nonce query and embeds the queried value. -/
theorem builders_nonce_modes (signTx : DynamicFeeTx → Nat → Nat → Except String Nat)
    (marshalBinary : SignedTx → Except String (List Nat))
    (tx : TransactionDetails) (ac : Account) (nonce : Nat) :
    (CreateTransactionWithNonce signTx marshalBinary tx ac nonce).1 = []
    ∧ (∀ st bytes,
        (CreateTransactionWithNonce signTx marshalBinary tx ac nonce).2
            = Except.ok (st, bytes) →
        st.txData.nonce = nonce)
    ∧ (CreateTransaction signTx marshalBinary tx ac).1 = [TxEffect.nonceQuery]
    ∧ (∀ n st bytes, ac.nonceResult = Except.ok n →
        (CreateTransaction signTx marshalBinary tx ac).2 = Except.ok (st, bytes) →
        st.txData.nonce = n) := by
  refine ⟨?_, ?_, ?_, ?_⟩
  · unfold CreateTransactionWithNonce
    split
    · rfl
    · split
      · rfl
      · split <;> rfl
  · intro st bytes h
    exact createTransactionWithNonce_embeds_nonce signTx marshalBinary tx ac nonce st bytes h
  · unfold CreateTransaction
    split
    · rfl
    · split
      · rfl
      · split
        · rfl
        · split <;> rfl
  · intro n st bytes hn h
    rw [createTransaction_eq_withNonce signTx marshalBinary tx ac n hn] at h
    exact createTransactionWithNonce_embeds_nonce signTx marshalBinary tx ac n st bytes h

/-- Witness for C7 at the sample collaborators, account and nonce 5. -/
theorem builders_nonce_modes_witness :
    (CreateTransactionWithNonce sampleSignTx sampleMarshal sampleTxDetails sampleAccountA 5).1 = []
    ∧ sampleSignedTx.txData.nonce = 5
    ∧ (CreateTransaction sampleSignTx sampleMarshal sampleTxDetails sampleAccountA).1
        = [TxEffect.nonceQuery] := by
  have h := builders_nonce_modes sampleSignTx sampleMarshal sampleTxDetails sampleAccountA 5
  exact ⟨h.1, h.2.1 sampleSignedTx sampleMarshalBytes rfl, h.2.2.1⟩

/-- C8: the exclusive bound handed to the entropy source is exactly 2^63, so
every generated session id is strictly below 2^63, and when the entropy source
is unavailable the generator ends fatally (never yielding a value). -/
theorem sessionID_range_and_fatal (randInt : Nat → Except String Nat)
    (hcontract : ∀ m n, randInt m = Except.ok n → n < m) :
    generateRandomSessionIDMax = 2 ^ 63
    ∧ (∀ n, GenerateRandomSessionID randInt = SessionIDResult.value n → n < 2 ^ 63)
    ∧ (∀ e, randInt generateRandomSessionIDMax = Except.error e →
        GenerateRandomSessionID randInt
          = SessionIDResult.fatal ("failed to generate random session ID: " ++ e)) := by
  have hmax : generateRandomSessionIDMax = 2 ^ 63 := by
    simp [generateRandomSessionIDMax, Nat.shiftLeft_eq]
  refine ⟨hmax, ?_, ?_⟩
  · intro n h
    unfold GenerateRandomSessionID at h
    cases hr : randInt generateRandomSessionIDMax with
    | error e =>
      rw [hr] at h
      simp at h
    | ok k =>
      rw [hr] at h
      simp only [SessionIDResult.value.injEq] at h
      rw [← h]
      have hlt := hcontract generateRandomSessionIDMax k hr
      rw [hmax] at hlt
      exact hlt
  · intro e he
    unfold GenerateRandomSessionID
    rw [he]

/-- Witness for C8 with an entropy source that returns 42 below every adequate
bound and fails otherwise. -/
theorem sessionID_range_and_fatal_witness :
    generateRandomSessionIDMax = 2 ^ 63
    ∧ (∀ n, GenerateRandomSessionID
          (fun m => if 42 < m then Except.ok 42 else Except.error "entropy unavailable")
        = SessionIDResult.value n → n < 2 ^ 63) := by
  have h := sessionID_range_and_fatal
    (fun m => if 42 < m then Except.ok 42 else Except.error "entropy unavailable")
    (by
      intro m n hmn
      by_cases hm : 42 < m
      · simp only [if_pos hm, Except.ok.injEq] at hmn
        omega
      · simp only [if_neg hm] at hmn
        simp at hmn)
  exact ⟨h.1, h.2.1⟩

/-- C10: given that the account's queried pending nonce is `n`, the auto-nonce
builder returns exactly the same signed transaction and canonical bytes (and
the same errors) as the explicit-nonce builder called with `n`. -/
theorem builders_agree_on_nonce (signTx : DynamicFeeTx → Nat → Nat → Except String Nat)
    (marshalBinary : SignedTx → Except String (List Nat))
    (tx : TransactionDetails) (ac : Account) (n : Nat)
    (h : ac.nonceResult = Except.ok n) :
    (CreateTransaction signTx marshalBinary tx ac).2
      = (CreateTransactionWithNonce signTx marshalBinary tx ac n).2 :=
  createTransaction_eq_withNonce signTx marshalBinary tx ac n h

/-- Witness for C10 at the sample collaborators and nonce 5. -/
theorem builders_agree_on_nonce_witness :
    (CreateTransaction sampleSignTx sampleMarshal sampleTxDetails sampleAccountA).2
      = (CreateTransactionWithNonce sampleSignTx sampleMarshal sampleTxDetails
          sampleAccountA 5).2 :=
  builders_agree_on_nonce sampleSignTx sampleMarshal sampleTxDetails sampleAccountA 5 rfl
